import Mathlib

/-!
Verification of the QR cross-device signature flow of the
`ovikreta-igazolas` application.

The development shallowly embeds, from the source:

* the hash router of `src/main.jsx` (`parseHash`, route dispatch of `App`);
* the host side `QRSignatureModal` (PeerJS endpoint, signing URL, the
  `connection`/`data`/`error` handlers, the delayed `peer.destroy()` after a
  received signature and the effect-cleanup `peer.destroy()`);
* the client side `MobileSignPage` (connection wiring, `sendSignature`, the
  render condition of the drawing surface and of the submit button).

JavaScript objects received over the wire are modelled by a JSON-like value
type `JValue`; JS truthiness is modelled by `JValue.truthy`.  The stateful
React components are modelled as explicit state machines: a state record, an
event type for the callbacks the component registers, and a step function
translated handler by handler from the source.
-/

/-- JSON-like values carried over the data channel. -/
inductive JValue where
  | null : JValue
  | str : String → JValue
  | num : Int → JValue
  | obj : List (String × JValue) → JValue

/-- JS truthiness for the values we model: `null`/`undefined`, the empty
string and `0` are falsy, every object is truthy. -/
def JValue.truthy : JValue → Bool
  | .null => false
  | .str s => !(s == "")
  | .num n => !(n == 0)
  | .obj _ => true

/-- JS member access `v.k` on a received value: a field lookup on objects,
`undefined` (here `none`) on everything else. -/
def JValue.lookup (v : JValue) (k : String) : Option JValue :=
  match v with
  | .obj fields => fields.lookup k
  | _ => none

/-! ### The hash router (`src/main.jsx`, `parseHash` / `App`) -/

/-- JS regex line terminators: the characters `.` does not match. -/
def lineTerminator (c : Char) : Bool :=
  c == '\n' || c == '\r' || c == '\u2028' || c == '\u2029'

/-- The literal characters of the route marker `#/sign/`. -/
def signMark : List Char := ['#', '/', 's', 'i', 'g', 'n', '/']

/-- The anchored JS regex `^#\/sign\/(.+)$` of `parseHash`: the hash must
start with `#/sign/`, and `(.+)` must cover the whole non-empty remainder,
`.` matching every character except a line terminator.  Returns the captured
group. -/
def matchSignHash (l : List Char) : Option (List Char) :=
  if l.take signMark.length = signMark
      ∧ signMark.length + 1 ≤ l.length
      ∧ (l.drop signMark.length).all (fun c => !lineTerminator c) = true
  then some (l.drop signMark.length) else none

/-- The route object produced by `parseHash`:
`{page:'sign', peerId}` or `{page:'main'}`. -/
inductive Route where
  | sign : String → Route
  | main : Route
deriving DecidableEq

/-- `parseHash` from `src/main.jsx`:
`hash.match(/^#\/sign\/(.+)$/)` yields the sign route with `peerId`
the captured group, any non-matching hash yields the main route. -/
def parseHash (hash : String) : Route :=
  match matchSignHash hash.data with
  | some rest => .sign (String.mk rest)
  | none => .main

/-- What `App` renders for a route. -/
inductive AppView where
  | signPage : String → AppView
  | mainForm : AppView
deriving DecidableEq

/-- Route dispatch of `App`: `route.page === 'sign'` renders
`MobileSignPage` with `targetPeerId = route.peerId`, otherwise the
`ParentalAbsenceForm`. -/
def appView (hash : String) : AppView :=
  match parseHash hash with
  | .sign peerId => .signPage peerId
  | .main => .mainForm

/-! ### The signing URL (`QRSignatureModal.signingUrl`) -/

/-- `window.location.origin + window.location.pathname + '#/sign/' + peerId`. -/
def signingUrlString (origin pathname peerId : String) : String :=
  origin ++ pathname ++ "#/sign/" ++ peerId

/-- `window.location.hash` of a URL string: the suffix starting at the first
`#`, empty when there is none. -/
def urlHash (u : String) : String :=
  String.mk (u.data.dropWhile (fun c => !(c == '#')))

/-! ### Host state machine (`QRSignatureModal`) -/

/-- The error text the modal stores on a PeerJS error. -/
def errText : String := "Kapcsolódási hiba. Kérlek próbáld újra."

/-- The host side check in the `data` handler:
`data && data.type === 'signature' && data.dataUrl`. -/
def isSignatureMsg (d : JValue) : Bool :=
  d.truthy &&
  (match d.lookup ("type") with
   | some (.str s) => s == "signature"
   | _ => false) &&
  (match d.lookup ("dataUrl") with
   | some v => v.truthy
   | none => false)

/-- `data.dataUrl`, the value handed to `onSignature`. -/
def sigDataUrl (d : JValue) : JValue :=
  match d.lookup ("dataUrl") with
  | some v => v
  | none => .null

/-- State of one `QRSignatureModal` session.  `destroyCalls` counts the calls
to `peer.destroy()`; `pendingDestroys` counts scheduled
`setTimeout(() => peer.destroy(), 500)` timers that have not fired yet. -/
structure HostState where
  peerId : Option String
  status : String
  errorMsg : Option String
  onSignatureCalls : List JValue
  destroyCalls : Nat
  pendingDestroys : Nat

/-- Events the modal's wiring can receive: the PeerJS `open`, `connection`
and `error` callbacks, per-connection `data` and `close` callbacks, a
scheduled destroy timer firing, and the React effect cleanup on unmount. -/
inductive HostEvent where
  | peerOpen : String → HostEvent
  | connection : HostEvent
  | data : JValue → HostEvent
  | connClose : HostEvent
  | peerError : HostEvent
  | destroyTimer : HostEvent
  | unmount : HostEvent

def isOpenEv : HostEvent → Bool
  | .peerOpen _ => true
  | _ => false

def isConnEv : HostEvent → Bool
  | .connection => true
  | _ => false

def isDataEv : HostEvent → Bool
  | .data _ => true
  | _ => false

def isUnmountEv : HostEvent → Bool
  | .unmount => true
  | _ => false

/-- One step of the host session, translated handler by handler from
`QRSignatureModal`'s `useEffect`:

* `peer.on('open', id => { setPeerId(id); setStatus('waiting') })`;
* `peer.on('connection', ...)` sets status `connected` and registers the
  `data`/`close` handlers on the connection;
* the `data` handler: `if (data && data.type === 'signature' && data.dataUrl)`
  sets status `received`, calls `onSignature(data.dataUrl)` and schedules
  `peer.destroy()` after 500 ms — otherwise it does nothing;
* the connection `close` handler does nothing;
* `peer.on('error', ...)` sets the error message (only);
* a scheduled destroy timer firing calls `peer.destroy()`;
* the effect cleanup on unmount calls `peer.destroy()`. -/
def hostStep (s : HostState) (e : HostEvent) : HostState :=
  match e with
  | .peerOpen id => { s with peerId := some id, status := "waiting" }
  | .connection => { s with status := "connected" }
  | .data d =>
      if isSignatureMsg d then
        { s with status := "received",
                 onSignatureCalls := s.onSignatureCalls ++ [sigDataUrl d],
                 pendingDestroys := s.pendingDestroys + 1 }
      else s
  | .connClose => s
  | .peerError => { s with errorMsg := some errText }
  | .destroyTimer =>
      match s.pendingDestroys with
      | 0 => s
      | n + 1 => { s with destroyCalls := s.destroyCalls + 1, pendingDestroys := n }
  | .unmount => { s with destroyCalls := s.destroyCalls + 1 }

/-- Initial state: `peerId = null`, `status = 'connecting'`, no error, no
callback invocations, no destroy calls. -/
def hostInit : HostState :=
  { peerId := none, status := "connecting", errorMsg := none,
    onSignatureCalls := [], destroyCalls := 0, pendingDestroys := 0 }

/-- Run a host session over a list of events. -/
def hostRun (tr : List HostEvent) : HostState := tr.foldl hostStep hostInit

/-- The rendered signing URL: `peerId ? origin + pathname + '#/sign/' + peerId
: null`. -/
def signingUrl (origin pathname : String) (s : HostState) : Option String :=
  match s.peerId with
  | some id => some (signingUrlString origin pathname id)
  | none => none

/-- Number of well-formed signature `data` events in a trace. -/
def isValidSigEv : HostEvent → Bool
  | .data d => isSignatureMsg d
  | _ => false

def countValidSig (tr : List HostEvent) : Nat := (tr.filter isValidSigEv).length

def countUnmount (tr : List HostEvent) : Nat := (tr.filter isUnmountEv).length

/-- `data` handlers exist only on inbound connections, so in a real session
every `data` event is preceded by a `connection` event.  `dataOnlyAfterConn
seen tr` checks this, `seen` recording whether a connection has been seen. -/
def dataOnlyAfterConn : Bool → List HostEvent → Bool
  | _, [] => true
  | seen, e :: rest =>
      match e with
      | .connection => dataOnlyAfterConn true rest
      | .data _ => seen && dataOnlyAfterConn seen rest
      | _ => dataOnlyAfterConn seen rest

/-! ### Client state machine (`MobileSignPage`) -/

/-- State of one `MobileSignPage` session.  `connSet` models
`connRef.current` being set; `sentMessages` records the arguments of
`connRef.current.send(...)`; `pendingSentTimers` counts scheduled
`setTimeout(() => setStatus('sent'), 300)` timers. -/
structure ClientState where
  status : String
  signatureDataUrl : Option String
  connSet : Bool
  sentMessages : List JValue
  pendingSentTimers : Nat

/-- Events of the client wiring: the PeerJS `open` (which calls
`peer.connect(targetPeerId)` and stores the connection), the connection's
`open`/`error`/`close`, the PeerJS `error`, the pad's `onSignatureChange`,
the submit button click, and the sent-confirmation timer firing. -/
inductive ClientEvent where
  | peerOpen : ClientEvent
  | connOpen : ClientEvent
  | connError : ClientEvent
  | connClose : ClientEvent
  | peerError : ClientEvent
  | draw : Option String → ClientEvent
  | sendClick : ClientEvent
  | sentTimer : ClientEvent
deriving DecidableEq

/-- JS truthiness of `signatureDataUrl` (`null` and `''` are falsy). -/
def jsTruthyStr : Option String → Bool
  | some s => !(s == "")
  | none => false

/-- The wire object built by `sendSignature`:
`{ type: 'signature', dataUrl: signatureDataUrl }`. -/
def clientSigPayload (s : String) : JValue :=
  .obj [("type", .str "signature"), ("dataUrl", .str s)]

/-- `sendSignature` from `MobileSignPage`:
`if (!signatureDataUrl || !connRef.current) return;` then
`setStatus('sending')`, one synchronous `connRef.current.send({type:
'signature', dataUrl})`, and `setTimeout(() => setStatus('sent'), 300)`. -/
def sendSignature (c : ClientState) : ClientState :=
  if jsTruthyStr c.signatureDataUrl && c.connSet then
    { c with status := "sending",
             sentMessages :=
               c.sentMessages ++ [clientSigPayload (c.signatureDataUrl.getD "")],
             pendingSentTimers := c.pendingSentTimers + 1 }
  else c

/-- One step of the client session, handler by handler from
`MobileSignPage`'s wiring: `peer.on('open')` connects and stores the
connection; `conn.on('open')` sets status `ready`; `conn.on('error')` and
`peer.on('error')` set status `error`; `conn.on('close')` does nothing; the
pad's `onSignatureChange` stores the data URL; the button click runs
`sendSignature`; the 300 ms timer sets status `sent`. -/
def clientStep (c : ClientState) (e : ClientEvent) : ClientState :=
  match e with
  | .peerOpen => { c with connSet := true }
  | .connOpen => { c with status := "ready" }
  | .connError => { c with status := "error" }
  | .connClose => c
  | .peerError => { c with status := "error" }
  | .draw s => { c with signatureDataUrl := s }
  | .sendClick => sendSignature c
  | .sentTimer =>
      match c.pendingSentTimers with
      | 0 => c
      | n + 1 => { c with status := "sent", pendingSentTimers := n }

def clientInit : ClientState :=
  { status := "connecting", signatureDataUrl := none, connSet := false,
    sentMessages := [], pendingSentTimers := 0 }

def clientRun (tr : List ClientEvent) : ClientState := tr.foldl clientStep clientInit

/-- Render condition of the signature area in `MobileSignPage`:
`status === 'ready' || status === 'sending'`. -/
def showSignatureArea (c : ClientState) : Bool :=
  c.status == "ready" || c.status == "sending"

/-- Enabled condition of the submit button:
`!(!signatureDataUrl || status === 'sending')`. -/
def sendButtonEnabled (c : ClientState) : Bool :=
  jsTruthyStr c.signatureDataUrl && !(c.status == "sending")

/-! ### Helper lemmas -/

theorem strDataAppend (a b : String) : (a ++ b).data = a.data ++ b.data := rfl

theorem strMkData (s : String) : String.mk s.data = s := rfl

theorem signMark_eq : ("#/sign/").data = signMark := rfl

theorem string_ne_empty_iff (s : String) : s ≠ "" ↔ s.data ≠ [] := by
  obtain ⟨l⟩ := s
  constructor
  · intro h hl
    exact h (by rw [show l = ([] : List Char) from hl])
  · intro h he
    exact h (congrArg String.data he)

theorem dropWhileAppendAll (p : Char → Bool) (l₁ l₂ : List Char)
    (h : l₁.all p = true) : (l₁ ++ l₂).dropWhile p = l₂.dropWhile p := by
  induction l₁ with
  | nil => rfl
  | cons c l ih =>
      rw [List.all_cons, Bool.and_eq_true] at h
      rw [List.cons_append, List.dropWhile_cons, if_pos h.1]
      exact ih h.2

theorem matchSignHash_eq_some (l r : List Char) :
    matchSignHash l = some r ↔
      l = signMark ++ r ∧ r ≠ [] ∧ r.all (fun c => !lineTerminator c) = true := by
  unfold matchSignHash
  split
  case isTrue h =>
    obtain ⟨h1, h2, h3⟩ := h
    constructor
    · intro he
      injection he with he
      subst he
      refine ⟨?_, ?_, h3⟩
      · conv_lhs => rw [← List.take_append_drop signMark.length l]
        rw [h1]
      · intro hnil
        have hlen : (l.drop signMark.length).length = l.length - signMark.length :=
          List.length_drop _ _
        rw [hnil] at hlen
        simp at hlen
        omega
    · rintro ⟨hl, hr, hall⟩
      subst hl
      rw [List.drop_left]
  case isFalse h =>
    constructor
    · intro he
      exact absurd he (by simp)
    · rintro ⟨hl, hr, hall⟩
      exfalso
      apply h
      subst hl
      refine ⟨List.take_left _ _, ?_, by rw [List.drop_left]; exact hall⟩
      have : 0 < r.length := List.length_pos.mpr hr
      rw [List.length_append]
      omega

/-! ### C1: the signing URL round-trips through the hash router -/

/-- C1 (amended): for every non-empty session id none of whose characters is
a JS regex line terminator — in particular every URL-safe id — the URL the
host composes as `origin + pathname + '#/sign/' + id`, read back through
`window.location.hash` and parsed by the client router's
`^#\/sign\/(.+)$` regex, yields back exactly the same id, provided origin
and pathname contain no `#` (as URL syntax guarantees). -/
theorem signing_url_roundtrip (origin pathname id : String)
    (h₁ : id ≠ "")
    (h₂ : id.data.all (fun c => !lineTerminator c) = true)
    (h₃ : origin.data.all (fun c => !(c == '#')) = true)
    (h₄ : pathname.data.all (fun c => !(c == '#')) = true) :
    parseHash (urlHash (signingUrlString origin pathname id)) = .sign id := by
  have hdata : (signingUrlString origin pathname id).data
      = origin.data ++ (pathname.data ++ (signMark ++ id.data)) := by
    simp [signingUrlString, strDataAppend, signMark, List.append_assoc]
  have hdrop : (signingUrlString origin pathname id).data.dropWhile
      (fun c => !(c == '#')) = signMark ++ id.data := by
    rw [hdata, dropWhileAppendAll _ _ _ h₃, dropWhileAppendAll _ _ _ h₄]
    rw [show signMark ++ id.data
        = '#' :: ('/' :: 's' :: 'i' :: 'g' :: 'n' :: '/' :: id.data) from rfl]
    rw [List.dropWhile_cons]
    simp
  have hm : matchSignHash (signMark ++ id.data) = some id.data :=
    (matchSignHash_eq_some _ _).mpr ⟨rfl, (string_ne_empty_iff id).mp h₁, h₂⟩
  unfold urlHash
  rw [hdrop]
  unfold parseHash
  rw [show (String.mk (signMark ++ id.data)).data = signMark ++ id.data from rfl]
  rw [hm]

theorem signing_url_roundtrip_witness :
    ("ABC123" : String) ≠ ""
    ∧ parseHash (urlHash (signingUrlString ("https://example.com") ("/")
        ("ABC123"))) = .sign ("ABC123") :=
  ⟨by decide,
   signing_url_roundtrip ("https://example.com") ("/") ("ABC123")
     (by decide) (by decide) (by decide) (by decide)⟩

/-- C1 counterexample: the id `"a\nb"` is non-empty, yet composing the
signing URL and parsing its hash yields the main route, not the id back:
the router's regex `.` does not match the newline. -/
theorem signing_url_roundtrip_cex :
    ("a\nb" : String) ≠ ""
    ∧ parseHash (urlHash (signingUrlString ("https://example.com") ("/")
        ("a\nb"))) = .main := by
  exact ⟨by decide, by decide⟩

/-! ### C10: route dispatch of `App` -/

/-- C10 (amended): the app routes to the mobile sign page exactly for hashes
of the form `#/sign/` followed by a non-empty remainder none of whose
characters is a JS regex line terminator (the `.` of `^#\/sign\/(.+)$`); the
extracted `targetPeerId` is the entire remainder, further `/` characters
included; every other hash — a bare `#/sign/` included — renders the main
form. -/
theorem app_route_iff (hash id : String) :
    (hash = "#/sign/" ++ id → id ≠ "" →
      id.data.all (fun c => !lineTerminator c) = true →
      appView hash = .signPage id)
    ∧ (appView hash = .mainForm
        ∨ ∃ rest : String, hash = "#/sign/" ++ rest ∧ rest ≠ ""
            ∧ rest.data.all (fun c => !lineTerminator c) = true
            ∧ appView hash = .signPage rest)
    ∧ appView ("#/sign/") = .mainForm := by
  refine ⟨?_, ?_, by decide⟩
  · intro hh hne hall
    subst hh
    have hm : matchSignHash ("#/sign/" ++ id).data = some id.data := by
      rw [strDataAppend, signMark_eq]
      exact (matchSignHash_eq_some _ _).mpr
        ⟨rfl, (string_ne_empty_iff id).mp hne, hall⟩
    unfold appView parseHash
    rw [hm]
  · cases hm : matchSignHash hash.data with
    | none =>
        left
        unfold appView parseHash
        rw [hm]
    | some r =>
        right
        obtain ⟨hl, hr, hall⟩ := (matchSignHash_eq_some _ _).mp hm
        refine ⟨String.mk r, ?_, ?_, hall, ?_⟩
        · apply String.ext
          rw [hl, strDataAppend, signMark_eq]
        · exact (string_ne_empty_iff _).mpr hr
        · unfold appView parseHash
          rw [hm]

theorem app_route_iff_witness :
    appView ("#/sign/abc/def") = .signPage ("abc/def")
    ∧ appView ("#/sign/") = .mainForm := by
  have h := app_route_iff ("#/sign/abc/def") ("abc/def")
  exact ⟨h.1 (by decide) (by decide) (by decide), h.2.2⟩

/-- C10 counterexample: the hash `"#/sign/\n"` consists of `#/sign/` followed
by one character, yet the app renders the main form, because the router's
regex `.` does not match the newline. -/
theorem app_route_newline_cex :
    ("#/sign/\n").data.length = signMark.length + 1
    ∧ List.take signMark.length ("#/sign/\n").data = signMark
    ∧ appView ("#/sign/\n") = .mainForm := by
  exact ⟨by decide, by decide, by decide⟩

/-! ### Host fold invariants -/

theorem host_calls_count (tr : List HostEvent) : ∀ s : HostState,
    ((tr.foldl hostStep s).onSignatureCalls).length
      = s.onSignatureCalls.length + countValidSig tr := by
  induction tr with
  | nil => intro s; simp [countValidSig]
  | cons e rest ih =>
      intro s
      rw [List.foldl_cons, ih]
      simp only [countValidSig, List.filter_cons]
      cases e with
      | data d =>
          cases hd : isSignatureMsg d with
          | false => simp [hostStep, hd, isValidSigEv, countValidSig]
          | true =>
              simp [hostStep, hd, isValidSigEv, countValidSig]
              omega
      | destroyTimer =>
          cases hp : s.pendingDestroys <;>
            simp [hostStep, hp, isValidSigEv, countValidSig]
      | peerOpen id => simp [hostStep, isValidSigEv, countValidSig]
      | connection => simp [hostStep, isValidSigEv, countValidSig]
      | connClose => simp [hostStep, isValidSigEv, countValidSig]
      | peerError => simp [hostStep, isValidSigEv, countValidSig]
      | unmount => simp [hostStep, isValidSigEv, countValidSig]

theorem host_destroy_sum (tr : List HostEvent) : ∀ s : HostState,
    (tr.foldl hostStep s).destroyCalls + (tr.foldl hostStep s).pendingDestroys
      = s.destroyCalls + s.pendingDestroys + countUnmount tr + countValidSig tr := by
  induction tr with
  | nil => intro s; simp [countUnmount, countValidSig]
  | cons e rest ih =>
      intro s
      rw [List.foldl_cons, ih]
      simp only [countUnmount, countValidSig, List.filter_cons]
      cases e with
      | data d =>
          cases hd : isSignatureMsg d with
          | false =>
              simp [hostStep, hd, isValidSigEv, isUnmountEv, countValidSig, countUnmount]
          | true =>
              simp [hostStep, hd, isValidSigEv, isUnmountEv, countValidSig, countUnmount]
              omega
      | destroyTimer =>
          cases hp : s.pendingDestroys <;>
            (simp [hostStep, hp, isValidSigEv, isUnmountEv, countValidSig, countUnmount];
             try omega)
      | unmount =>
          simp [hostStep, isValidSigEv, isUnmountEv, countValidSig, countUnmount]
          omega
      | peerOpen id => simp [hostStep, isValidSigEv, isUnmountEv, countValidSig, countUnmount]
      | connection => simp [hostStep, isValidSigEv, isUnmountEv, countValidSig, countUnmount]
      | connClose => simp [hostStep, isValidSigEv, isUnmountEv, countValidSig, countUnmount]
      | peerError => simp [hostStep, isValidSigEv, isUnmountEv, countValidSig, countUnmount]

theorem host_unmount_le (tr : List HostEvent) : ∀ s : HostState,
    s.destroyCalls + countUnmount tr ≤ (tr.foldl hostStep s).destroyCalls := by
  induction tr with
  | nil => intro s; simp [countUnmount]
  | cons e rest ih =>
      intro s
      rw [List.foldl_cons]
      simp only [countUnmount, List.filter_cons]
      cases e with
      | data d =>
          cases hd : isSignatureMsg d with
          | false =>
              have := ih (hostStep s (.data d))
              simp [hostStep, hd, isUnmountEv, countUnmount] at this ⊢
              omega
          | true =>
              have := ih (hostStep s (.data d))
              simp [hostStep, hd, isUnmountEv, countUnmount] at this ⊢
              omega
      | destroyTimer =>
          have := ih (hostStep s .destroyTimer)
          cases hp : s.pendingDestroys <;>
            simp [hostStep, hp, isUnmountEv, countUnmount] at this ⊢ <;>
            omega
      | unmount =>
          have := ih (hostStep s .unmount)
          simp [hostStep, isUnmountEv, countUnmount] at this ⊢
          omega
      | peerOpen id =>
          have := ih (hostStep s (.peerOpen id))
          simp [hostStep, isUnmountEv, countUnmount] at this ⊢
          omega
      | connection =>
          have := ih (hostStep s .connection)
          simp [hostStep, isUnmountEv, countUnmount] at this ⊢
          omega
      | connClose =>
          have := ih (hostStep s .connClose)
          simp [hostStep, isUnmountEv, countUnmount] at this ⊢
          omega
      | peerError =>
          have := ih (hostStep s .peerError)
          simp [hostStep, isUnmountEv, countUnmount] at this ⊢
          omega

theorem host_error_persists (tr : List HostEvent) : ∀ s : HostState,
    s.errorMsg = some errText → (tr.foldl hostStep s).errorMsg = some errText := by
  induction tr with
  | nil => intro s h; simpa using h
  | cons e rest ih =>
      intro s h
      rw [List.foldl_cons]
      apply ih
      cases e with
      | data d => cases hd : isSignatureMsg d <;> simp [hostStep, hd, h]
      | destroyTimer => cases hp : s.pendingDestroys <;> simp [hostStep, hp, h]
      | peerOpen id => simpa [hostStep] using h
      | connection => simpa [hostStep] using h
      | connClose => simpa [hostStep] using h
      | peerError => simp [hostStep]
      | unmount => simpa [hostStep] using h

theorem host_peerId_stable (tr : List HostEvent) : ∀ s : HostState,
    tr.all (fun e => !isOpenEv e) = true → (tr.foldl hostStep s).peerId = s.peerId := by
  induction tr with
  | nil => intro s _; rfl
  | cons e rest ih =>
      intro s h
      rw [List.all_cons, Bool.and_eq_true] at h
      rw [List.foldl_cons, ih _ h.2]
      cases e with
      | data d => cases hd : isSignatureMsg d <;> simp [hostStep, hd]
      | destroyTimer => cases hp : s.pendingDestroys <;> simp [hostStep, hp]
      | peerOpen id => simp [isOpenEv] at h
      | connection => simp [hostStep]
      | connClose => simp [hostStep]
      | peerError => simp [hostStep]
      | unmount => simp [hostStep]

theorem host_status_quiet (tr : List HostEvent) : ∀ s : HostState,
    tr.all (fun e => !isConnEv e && !isDataEv e) = true →
    (tr.foldl hostStep s).status = s.status ∨
      (tr.foldl hostStep s).status = "waiting" := by
  induction tr with
  | nil => intro s _; left; rfl
  | cons e rest ih =>
      intro s h
      rw [List.all_cons, Bool.and_eq_true] at h
      rw [List.foldl_cons]
      cases e with
      | data d => simp [isDataEv] at h
      | connection => simp [isConnEv] at h
      | peerOpen id =>
          rcases ih _ h.2 with hq | hq
          · right; rw [hq]; simp [hostStep]
          · right; exact hq
      | destroyTimer =>
          rcases ih _ h.2 with hq | hq
          · left; rw [hq]; cases hp : s.pendingDestroys <;> simp [hostStep, hp]
          · right; exact hq
      | connClose =>
          rcases ih _ h.2 with hq | hq
          · left; rw [hq]; simp [hostStep]
          · right; exact hq
      | peerError =>
          rcases ih _ h.2 with hq | hq
          · left; rw [hq]; simp [hostStep]
          · right; exact hq
      | unmount =>
          rcases ih _ h.2 with hq | hq
          · left; rw [hq]; simp [hostStep]
          · right; exact hq

theorem host_status_waiting (tr : List HostEvent) : ∀ s : HostState,
    s.status = "waiting" →
    tr.all (fun e => !isConnEv e && !isDataEv e) = true →
    (tr.foldl hostStep s).status = "waiting" := by
  induction tr with
  | nil => intro s h _; exact h
  | cons e rest ih =>
      intro s h hall
      rw [List.all_cons, Bool.and_eq_true] at hall
      rw [List.foldl_cons]
      cases e with
      | data d => simp [isDataEv] at hall
      | connection => simp [isConnEv] at hall
      | peerOpen id => exact ih _ (by simp [hostStep]) hall.2
      | destroyTimer =>
          refine ih _ ?_ hall.2
          cases hp : s.pendingDestroys <;> simp [hostStep, hp, h]
      | connClose => exact ih _ (by simpa [hostStep] using h) hall.2
      | peerError => exact ih _ (by simpa [hostStep] using h) hall.2
      | unmount => exact ih _ (by simpa [hostStep] using h) hall.2

theorem host_status_open_waiting (tr : List HostEvent) : ∀ s : HostState,
    tr.any isOpenEv = true →
    tr.all (fun e => !isConnEv e && !isDataEv e) = true →
    (tr.foldl hostStep s).status = "waiting" := by
  induction tr with
  | nil => intro s h _; simp at h
  | cons e rest ih =>
      intro s hany hall
      rw [List.all_cons, Bool.and_eq_true] at hall
      rw [List.any_cons, Bool.or_eq_true] at hany
      rw [List.foldl_cons]
      cases e with
      | data d => simp [isDataEv] at hall
      | connection => simp [isConnEv] at hall
      | peerOpen id => exact host_status_waiting rest _ (by simp [hostStep]) hall.2
      | destroyTimer =>
          rcases hany with hany | hany
          · simp [isOpenEv] at hany
          · exact ih _ hany hall.2
      | connClose =>
          rcases hany with hany | hany
          · simp [isOpenEv] at hany
          · exact ih _ hany hall.2
      | peerError =>
          rcases hany with hany | hany
          · simp [isOpenEv] at hany
          · exact ih _ hany hall.2
      | unmount =>
          rcases hany with hany | hany
          · simp [isOpenEv] at hany
          · exact ih _ hany hall.2

theorem noConn_noData (tr : List HostEvent)
    (hwf : dataOnlyAfterConn false tr = true)
    (hnc : tr.all (fun e => !isConnEv e) = true) :
    tr.all (fun e => !isDataEv e) = true := by
  induction tr with
  | nil => rfl
  | cons e rest ih =>
      rw [List.all_cons, Bool.and_eq_true] at hnc
      rw [List.all_cons, Bool.and_eq_true]
      cases e with
      | connection => simp [isConnEv] at hnc
      | data d => simp [dataOnlyAfterConn] at hwf
      | peerOpen id => exact ⟨rfl, ih (by simpa [dataOnlyAfterConn] using hwf) hnc.2⟩
      | connClose => exact ⟨rfl, ih (by simpa [dataOnlyAfterConn] using hwf) hnc.2⟩
      | peerError => exact ⟨rfl, ih (by simpa [dataOnlyAfterConn] using hwf) hnc.2⟩
      | destroyTimer => exact ⟨rfl, ih (by simpa [dataOnlyAfterConn] using hwf) hnc.2⟩
      | unmount => exact ⟨rfl, ih (by simpa [dataOnlyAfterConn] using hwf) hnc.2⟩

/-! ### C2: onSignature invocations per session -/

/-- C2 (amended): the host's `onSignature` callback is invoked exactly once
per well-formed signature `data` event — the handler has no first-payload
guard, so a session in which several valid payloads arrive (over one or
several inbound connections) invokes the callback several times; at most one
invocation per session holds only when at most one valid payload arrives. -/
theorem onSignature_per_payload (tr : List HostEvent) :
    (hostRun tr).onSignatureCalls.length = countValidSig tr := by
  have h := host_calls_count tr hostInit
  simpa [hostRun, hostInit] using h

/-- C2 counterexample: two inbound connections each delivering a well-formed
signature payload make the host invoke `onSignature` twice, not at most
once. -/
theorem onSignature_twice_cex :
    (hostRun [.peerOpen ("ABC123"), .connection,
      .data (clientSigPayload ("data:image/png;base64,AAA")), .connection,
      .data (clientSigPayload ("data:image/png;base64,AAA"))]).onSignatureCalls.length
      = 2 := by
  rfl

/-! ### C4: malformed payloads are ignored silently -/

/-- C4: a received message that fails the host's shape check
`data && data.type === 'signature' && data.dataUrl` leaves the host state
completely unchanged — same status, no `onSignature` call, nothing scheduled;
contrapositively, only a well-formed signature payload moves the state
machine on a `data` event. -/
theorem malformed_payload_ignored (s : HostState) (d : JValue)
    (h : isSignatureMsg d = false) :
    hostStep s (.data d) = s := by
  simp [hostStep, h]

theorem malformed_payload_ignored_witness :
    isSignatureMsg (.obj [("kind", .str ("ping"))]) = false
    ∧ hostStep { hostInit with status := "connected" }
        (.data (.obj [("kind", .str ("ping"))]))
      = { hostInit with status := "connected" } :=
  ⟨rfl, malformed_payload_ignored _ _ rfl⟩

/-! ### C5: destroy calls over the session lifetime -/

/-- C5 (amended): the host session never leaves a registered endpoint
dangling — every unmount contributes a `peer.destroy()` call, so
`destroyCalls` is at least the number of unmounts, and on an exit path with
no received signature and one unmount `peer.destroy()` runs exactly once.
The calls are accounted exactly: they total the unmount cleanups plus the
fired post-receipt timers, so after a received signature the delayed
`setTimeout(() => peer.destroy(), 500)` makes a second call on top of the
unmount cleanup — "exactly once on every exit path" does not hold there. -/
theorem host_destroy_accounting (tr : List HostEvent) :
    (hostRun tr).destroyCalls + (hostRun tr).pendingDestroys
      = countUnmount tr + countValidSig tr
    ∧ countUnmount tr ≤ (hostRun tr).destroyCalls
    ∧ (countValidSig tr = 0 → countUnmount tr = 1 →
        (hostRun tr).destroyCalls = 1) := by
  have h1 := host_destroy_sum tr hostInit
  have h2 := host_unmount_le tr hostInit
  rw [show hostInit.destroyCalls = 0 from rfl,
    show hostInit.pendingDestroys = 0 from rfl] at h1
  rw [show hostInit.destroyCalls = 0 from rfl] at h2
  simp only [Nat.zero_add] at h1 h2
  refine ⟨h1, h2, ?_⟩
  intro hv hu
  rw [hv] at h1
  rw [hu] at h1 h2
  simp only [hostRun] at h1 h2 ⊢
  omega

theorem host_destroy_accounting_witness :
    countValidSig [HostEvent.peerOpen ("ABC123"), .unmount] = 0
    ∧ countUnmount [HostEvent.peerOpen ("ABC123"), .unmount] = 1
    ∧ (hostRun [HostEvent.peerOpen ("ABC123"), .unmount]).destroyCalls = 1 := by
  have h := host_destroy_accounting [HostEvent.peerOpen ("ABC123"), .unmount]
  exact ⟨rfl, rfl, h.2.2 rfl rfl⟩

/-- C5 counterexample: on the receive-then-unmount exit path the transport
endpoint's `destroy` is called twice — once by the effect cleanup and once by
the 500 ms timer scheduled in the `data` handler — although the session
unmounts only once. -/
theorem host_destroy_twice_cex :
    countUnmount [HostEvent.peerOpen ("ABC123"), .connection,
      .data (clientSigPayload ("data:image/png;base64,AAA")), .unmount,
      .destroyTimer] = 1
    ∧ (hostRun [HostEvent.peerOpen ("ABC123"), .connection,
        .data (clientSigPayload ("data:image/png;base64,AAA")), .unmount,
        .destroyTimer]).destroyCalls = 2 :=
  ⟨rfl, rfl⟩

/-! ### C6: endpoint registration failure -/

/-- C6: when the transport reports an error before any id is assigned (no
`open` event ever fires), the host records the error state as soon as the
error event is processed, the error survives every later event of the
session — there is no retry-in-place — and no signing URL is ever rendered
at any point of the session, since `peerId` stays `null`. -/
theorem host_registration_failure (origin pathname : String)
    (tr₁ tr₂ : List HostEvent)
    (h₁ : tr₁.all (fun e => !isOpenEv e) = true)
    (h₂ : tr₂.all (fun e => !isOpenEv e) = true) :
    (hostRun (tr₁ ++ [.peerError])).errorMsg = some errText
    ∧ (hostRun (tr₁ ++ .peerError :: tr₂)).errorMsg = some errText
    ∧ (∀ pre, pre <+: (tr₁ ++ .peerError :: tr₂) →
        signingUrl origin pathname (hostRun pre) = none) := by
  refine ⟨?_, ?_, ?_⟩
  · rw [hostRun, List.foldl_append]
    rfl
  · rw [hostRun, List.foldl_append, List.foldl_cons]
    exact host_error_persists tr₂ _ rfl
  · rintro pre ⟨t, ht⟩
    have hall : (tr₁ ++ .peerError :: tr₂).all (fun e => !isOpenEv e) = true := by
      rw [List.all_append, List.all_cons, Bool.and_eq_true, Bool.and_eq_true]
      exact ⟨h₁, rfl, h₂⟩
    rw [← ht, List.all_append, Bool.and_eq_true] at hall
    have hid : (hostRun pre).peerId = none := by
      rw [hostRun]
      rw [host_peerId_stable pre hostInit hall.1]
      rfl
    rw [signingUrl, hid]

theorem host_registration_failure_witness :
    (hostRun ([] ++ [.peerError])).errorMsg = some errText
    ∧ (hostRun ([] ++ .peerError :: [.connClose])).errorMsg = some errText
    ∧ signingUrl ("https://example.com") ("/") (hostRun [.peerError]) = none := by
  have h := host_registration_failure ("https://example.com") ("/")
    [] [.connClose] rfl rfl
  exact ⟨h.1, h.2.1, h.2.2 [.peerError] ⟨[.connClose], rfl⟩⟩

/-! ### C7: a host session without inbound connection waits forever -/

/-- C7: in a session whose `data` events occur only after an inbound
connection (as the wiring guarantees: `data` handlers are registered inside
the `connection` handler) and which receives no `connection` event, the host
status never becomes `connected` or `received`: it stays at `connecting` or
`waiting`, and once the endpoint id has arrived (`open` fired) it is exactly
`waiting` — timers, connection closes and even transport errors (which only
set the separate error message) never move the status out of `Waiting`. -/
theorem host_waits_forever (tr : List HostEvent)
    (hwf : dataOnlyAfterConn false tr = true)
    (hnc : tr.all (fun e => !isConnEv e) = true) :
    ((hostRun tr).status = "connecting" ∨ (hostRun tr).status = "waiting")
    ∧ (hostRun tr).status ≠ "connected"
    ∧ (hostRun tr).status ≠ "received"
    ∧ (tr.any isOpenEv = true → (hostRun tr).status = "waiting") := by
  have hnd := noConn_noData tr hwf hnc
  have hq : tr.all (fun e => !isConnEv e && !isDataEv e) = true := by
    rw [List.all_eq_true] at hnc hnd ⊢
    intro e he
    simp [hnc e he, hnd e he]
  have hdisj := host_status_quiet tr hostInit hq
  rw [show hostInit.status = "connecting" from rfl] at hdisj
  refine ⟨hdisj, ?_, ?_, ?_⟩
  · rcases hdisj with h | h <;> rw [hostRun, h] <;> decide
  · rcases hdisj with h | h <;> rw [hostRun, h] <;> decide
  · intro hany
    exact host_status_open_waiting tr hostInit hany hq

theorem host_waits_forever_witness :
    (hostRun [HostEvent.peerOpen ("ABC123"), .destroyTimer, .peerError,
      .connClose]).status = "waiting" := by
  have h := host_waits_forever
    [HostEvent.peerOpen ("ABC123"), .destroyTimer, .peerError, .connClose]
    rfl rfl
  exact h.2.2.2 rfl

/-! ### C8: client Ready transition and drawing surface -/

/-- C8 (amended): the client's `Connecting → Ready` transition fires exactly
when the outbound connection reports `open` — `conn.on('open')` always sets
`ready`, and no other event produces `ready` from a non-`ready` state — but
the drawing surface is rendered in both `Ready` and `Sending` (the render
condition is `status === 'ready' || status === 'sending'`); outside those two
states the surface is hidden, and during `Sending` only the submit button is
disabled. -/
theorem client_ready_transitions (s : ClientState) (e : ClientEvent) :
    (clientStep s .connOpen).status = "ready"
    ∧ ((clientStep s e).status = "ready" → e = .connOpen ∨ s.status = "ready")
    ∧ (showSignatureArea s = true → s.status = "ready" ∨ s.status = "sending")
    ∧ (s.status ≠ "ready" → s.status ≠ "sending" → showSignatureArea s = false)
    ∧ (s.status = "sending" → sendButtonEnabled s = false) := by
  refine ⟨rfl, ?_, ?_, ?_, ?_⟩
  · cases e with
    | peerOpen => intro h; exact Or.inr h
    | connOpen => intro _; exact Or.inl rfl
    | connError => intro h; simp [clientStep] at h
    | connClose => intro h; exact Or.inr h
    | peerError => intro h; simp [clientStep] at h
    | draw s' => intro h; exact Or.inr h
    | sendClick =>
        intro h
        simp only [clientStep, sendSignature] at h
        split at h
        · simp at h
        · exact Or.inr h
    | sentTimer =>
        intro h
        simp only [clientStep] at h
        split at h
        · exact Or.inr h
        · simp at h
  · intro h
    unfold showSignatureArea at h
    rw [Bool.or_eq_true] at h
    rcases h with h | h
    · exact Or.inl (beq_iff_eq.mp h)
    · exact Or.inr (beq_iff_eq.mp h)
  · intro h1 h2
    simp [showSignatureArea, h1, h2]
  · intro h
    simp [sendButtonEnabled, h]

theorem client_ready_transitions_witness :
    (clientStep clientInit .connOpen).status = "ready"
    ∧ (ClientEvent.connOpen = ClientEvent.connOpen ∨ clientInit.status = "ready")
    ∧ showSignatureArea clientInit = false := by
  have h := client_ready_transitions clientInit ClientEvent.connOpen
  exact ⟨h.1, h.2.1 h.1, h.2.2.2.1 (by decide) (by decide)⟩

/-- C8 counterexample: after connecting, drawing and tapping send, the
client's state is `sending`, yet the drawing surface is still rendered — the
render condition of `MobileSignPage` includes `status === 'sending'`, so the
surface is not enabled only in `Ready`. -/
theorem drawing_surface_sending_cex :
    (clientRun [.peerOpen, .connOpen,
      .draw (some ("data:image/png;base64,AAA")), .sendClick]).status = "sending"
    ∧ showSignatureArea (clientRun [.peerOpen, .connOpen,
      .draw (some ("data:image/png;base64,AAA")), .sendClick]) = true :=
  ⟨rfl, rfl⟩

/-! ### C9: the client send operation -/

/-- C9: `sendSignature` requires a non-empty captured drawing (a falsy
`signatureDataUrl` makes it a no-op); when its guard passes it synchronously
records exactly one send of the wire payload — fire-and-forget, with no
dependence on any host acknowledgment — moves the status to `sending`, and
schedules the single 300 ms timer whose firing flips the status to `sent`. -/
theorem send_signature_behavior (c : ClientState) (img : String)
    (h₁ : c.signatureDataUrl = some img) (h₂ : img ≠ "") (h₃ : c.connSet = true) :
    sendSignature c
      = { c with
          status := "sending",
          sentMessages := c.sentMessages ++ [clientSigPayload img],
          pendingSentTimers := c.pendingSentTimers + 1 }
    ∧ (clientStep (sendSignature c) .sentTimer).status = "sent"
    ∧ (∀ cNoSig : ClientState, jsTruthyStr cNoSig.signatureDataUrl = false →
        sendSignature cNoSig = cNoSig) := by
  have htr : (jsTruthyStr c.signatureDataUrl && c.connSet) = true := by
    rw [h₁, h₃]
    simp [jsTruthyStr, h₂]
  have hsend : sendSignature c
      = { c with
          status := "sending",
          sentMessages := c.sentMessages ++ [clientSigPayload img],
          pendingSentTimers := c.pendingSentTimers + 1 } := by
    unfold sendSignature
    rw [if_pos htr, h₁]
    rfl
  refine ⟨hsend, ?_, ?_⟩
  · rw [hsend]
    rfl
  · intro cNoSig hns
    unfold sendSignature
    rw [if_neg (by simp [hns])]

theorem send_signature_behavior_witness :
    sendSignature
      { status := "ready",
        signatureDataUrl := some ("data:image/png;base64,AAA"),
        connSet := true,
        sentMessages := [],
        pendingSentTimers := 0 }
      = { status := "sending",
          signatureDataUrl := some ("data:image/png;base64,AAA"),
          connSet := true,
          sentMessages := [clientSigPayload ("data:image/png;base64,AAA")],
          pendingSentTimers := 1 }
    ∧ sendSignature clientInit = clientInit := by
  have h := send_signature_behavior
    { status := "ready",
      signatureDataUrl := some ("data:image/png;base64,AAA"),
      connSet := true,
      sentMessages := [],
      pendingSentTimers := 0 }
    ("data:image/png;base64,AAA") rfl (by decide) rfl
  exact ⟨h.1, h.2.2 clientInit rfl⟩

/-! ### C3: the happy path -/

/-- C3 counterexample: the payload the client actually sends carries its
discriminator in a `type` field and its image in a `dataUrl` field; it has no
`kind` and no `image` field, so the wire payload is not the object
`{kind: "signature", image: string}` stated by the claim. -/
theorem wire_payload_kind_cex :
    (clientSigPayload ("data:image/png;base64,AAA")).lookup ("kind") = none
    ∧ (clientSigPayload ("data:image/png;base64,AAA")).lookup ("image") = none
    ∧ (clientSigPayload ("data:image/png;base64,AAA")).lookup ("type")
        = some (.str ("signature"))
    ∧ (clientSigPayload ("data:image/png;base64,AAA")).lookup ("dataUrl")
        = some (.str ("data:image/png;base64,AAA")) :=
  ⟨rfl, rfl, rfl, rfl⟩

/-- C3 (amended): the happy path, with the wire payload the code actually
uses, `{type: "signature", dataUrl: string}`: once the host endpoint resolves
to `"ABC123"` the rendered URL is `origin + pathname + "#/sign/ABC123"`; a
client whose connection fires `open` is `ready`; sending the image
`"data:image/png;base64,AAA"` records exactly that payload on the wire; and a
host receiving it on a `data` event invokes `onSignature` with exactly that
string and ends in status `received`. -/
theorem happy_path_wire (origin pathname : String) :
    signingUrl origin pathname (hostRun [.peerOpen ("ABC123")])
      = some (origin ++ pathname ++ "#/sign/ABC123")
    ∧ (clientRun [.peerOpen, .connOpen]).status = "ready"
    ∧ (clientRun [.peerOpen, .connOpen,
        .draw (some ("data:image/png;base64,AAA")), .sendClick]).sentMessages
      = [clientSigPayload ("data:image/png;base64,AAA")]
    ∧ (hostRun [.peerOpen ("ABC123"), .connection,
        .data (clientSigPayload ("data:image/png;base64,AAA"))]).onSignatureCalls
      = [.str ("data:image/png;base64,AAA")]
    ∧ (hostRun [.peerOpen ("ABC123"), .connection,
        .data (clientSigPayload ("data:image/png;base64,AAA"))]).status
      = "received" := by
  refine ⟨?_, rfl, rfl, rfl, rfl⟩
  show some (signingUrlString origin pathname ("ABC123")) = _
  rw [signingUrlString, String.append_assoc]
  rfl
